import Mathlib

/-!
Verification of the id-link plugin core (src/main.ts).

The development shallowly embeds the plugin's identifier-resolution engine:
the regular-expression extraction used on file names, the JavaScript value
model needed for loose vs strict equality on front-matter properties, the
resolution and synchronization functions, the link encoder, and the inbound
protocol handler.  Host builtins (encodeURIComponent, URL parsing of the
obsidian scheme) are modelled explicitly where noted.
-/

namespace IdLink

/-! ## Regular expressions

Model of the JavaScript RegExp subset that the plugin's filename patterns
use (anchors, literal characters, digit classes, character sets, fixed
repetition, capture groups).  Matching is deterministic; `regexExec` scans
left to right like `RegExp.exec` on a non-global regex. -/

inductive Regex where
  | eps
  | bol
  | char (c : Char)
  | digit
  | anyOf (cs : List Char)
  | seq (r1 r2 : Regex)
  | group (idx : Nat) (r : Regex)
deriving DecidableEq

/-- Fixed repetition `r{n}`, unfolded into a sequence. -/
def repExact (r : Regex) : Nat → Regex
  | 0 => .eps
  | n + 1 => .seq r (repExact r n)

/-- Whether the pattern contains a capture group. -/
def hasGroup : Regex → Bool
  | .eps | .bol | .char _ | .digit | .anyOf _ => false
  | .seq r1 r2 => hasGroup r1 || hasGroup r2
  | .group _ _ => true

/-- Captured groups of a match: group index paired with captured text. -/
abbrev Groups := List (Nat × String)

def lookupGroup (i : Nat) : Groups → Option String
  | [] => none
  | (j, s) :: rest => if j = i then some s else lookupGroup i rest

/-- Continuation-style matcher.  `pos` is the absolute position in the
subject (so `bol` can test for the start), `s` the remaining characters,
`g` the groups captured so far. -/
def matchR : Regex → Nat → List Char → Groups →
    (Nat → List Char → Groups → Option Groups) → Option Groups
  | .eps, pos, s, g, k => k pos s g
  | .bol, pos, s, g, k => if pos = 0 then k pos s g else none
  | .char _, _, [], _, _ => none
  | .char c, pos, c' :: rest, g, k => if c' = c then k (pos + 1) rest g else none
  | .digit, _, [], _, _ => none
  | .digit, pos, c' :: rest, g, k => if c'.isDigit then k (pos + 1) rest g else none
  | .anyOf _, _, [], _, _ => none
  | .anyOf cs, pos, c' :: rest, g, k => if cs.contains c' then k (pos + 1) rest g else none
  | .seq r1 r2, pos, s, g, k => matchR r1 pos s g (fun p2 s2 g2 => matchR r2 p2 s2 g2 k)
  | .group i r1, pos, s, g, k =>
      matchR r1 pos s g (fun p2 s2 g2 => k p2 s2 ((i, String.mk (s.take (p2 - pos))) :: g2))

/-- Model of `RegExp.exec`: try every start position from left to right and
return the captured groups of the first match. -/
def regexExec (r : Regex) (s : List Char) : Option Groups :=
  (List.range (s.length + 1)).findSome? fun i =>
    matchR r i (s.drop i) [] fun _ _ g => some g

/-! ## JavaScript value model

Front-matter property values can be strings or numbers; the plugin compares
them to the link's identifier string with `==` in one place and `===` in
another, so the embedding keeps the distinction. -/

inductive Val where
  | str (s : String)
  | num (n : Int)
deriving DecidableEq

/-- JavaScript truthiness of a value (empty string and zero are falsy). -/
def jsTruthy : Val → Bool
  | .str s => !(s == "")
  | .num n => !(n == 0)

/-- Truthiness test of an optional value (`undefined` is falsy). -/
def jsFalsyOpt : Option Val → Bool
  | none => true
  | some v => !jsTruthy v

/-- Truthiness test of an optional string (`undefined` and `""` are falsy). -/
def jsFalsyStrOpt : Option String → Bool
  | none => true
  | some s => s == ""

/-- String representation, as `toString()` produces on these values. -/
def valToString : Val → String
  | .str s => s
  | .num n => toString n

/-- Modelled host semantics: JavaScript `Number(string)` restricted to the
integer literals relevant here (empty string is 0, optional sign, decimal
digits; anything else is NaN, i.e. `none`). -/
def parseJsInt (s : String) : Option Int :=
  let digitsToNat : List Char → Option Nat := fun cs =>
    if cs.isEmpty then none
    else if cs.all Char.isDigit then
      some (cs.foldl (fun a c => 10 * a + (c.toNat - 48)) 0)
    else none
  match s.data with
  | [] => some 0
  | '+' :: rest => (digitsToNat rest).map Int.ofNat
  | '-' :: rest => (digitsToNat rest).map (fun n => -(n : Int))
  | cs => (digitsToNat cs).map Int.ofNat

/-- Modelled host semantics: JavaScript loose equality `v == id` between an
optional property value and an identifier string (a number operand makes
the string be converted to a number). -/
def jsLooseEqOpt (v : Option Val) (id : String) : Bool :=
  match v with
  | none => false
  | some (.str s) => s == id
  | some (.num n) =>
    match parseJsInt id with
    | some m => m == n
    | none => false

/-- Modelled host semantics: JavaScript strict inequality `v !== id` between
an optional property value and a (string) identifier; operands of different
types are always strictly unequal. -/
def jsStrictNeqValStr (v : Option Val) (id : String) : Bool :=
  match v with
  | some (.str a) => !(a == id)
  | _ => true

/-! ## URI component codec

Model of the host builtins `encodeURIComponent` / percent-decoding
(standard URI component encoding: unreserved characters kept, all others
percent-encoded as UTF-8 bytes). -/

def isUnreservedURI (c : Char) : Bool :=
  c.isAlphanum || c == '-' || c == '_' || c == '.' || c == '!' || c == '~' ||
    c == '*' || c == Char.ofNat 39 || c == '(' || c == ')'

/-- Uppercase hexadecimal digit for `n < 16`. -/
def hexDigit (n : Nat) : Char :=
  if n < 10 then Char.ofNat (48 + n) else Char.ofNat (55 + n)

/-- Value of a hexadecimal digit character. -/
def hexVal (c : Char) : Option Nat :=
  if c.isDigit then some (c.toNat - 48)
  else if 65 ≤ c.toNat && c.toNat ≤ 70 then some (c.toNat - 55)
  else if 97 ≤ c.toNat && c.toNat ≤ 102 then some (c.toNat - 87)
  else none

/-- UTF-8 bytes of a code point (standard bit packing). -/
def utf8Bytes (n : Nat) : List Nat :=
  if n < 128 then [n]
  else if n < 2048 then [192 + n / 64 % 32, 128 + n % 64]
  else if n < 65536 then [224 + n / 4096 % 16, 128 + n / 64 % 64, 128 + n % 64]
  else [240 + n / 262144 % 8, 128 + n / 4096 % 64, 128 + n / 64 % 64, 128 + n % 64]

/-- Percent-encoding of one character per `encodeURIComponent`. -/
def encodeChar (c : Char) : List Char :=
  if isUnreservedURI c then [c]
  else (utf8Bytes c.toNat).flatMap (fun b => ['%', hexDigit (b / 16), hexDigit (b % 16)])

/-- Modelled host builtin `encodeURIComponent`. -/
def encodeURIComponent (s : String) : String :=
  String.mk (s.data.flatMap encodeChar)

/-- Percent-decoding into raw bytes: `%XX` escapes become the byte `XX`, a
plain character contributes its UTF-8 bytes; a malformed escape fails. -/
def percentDecodeBytes : List Char → Option (List Nat)
  | [] => some []
  | c :: rest =>
    if c = '%' then
      match rest with
      | h1 :: h2 :: rest2 =>
        match hexVal h1, hexVal h2 with
        | some v1, some v2 => (percentDecodeBytes rest2).map (fun bs => (16 * v1 + v2) :: bs)
        | _, _ => none
      | _ => none
    else (percentDecodeBytes rest).map (fun bs => utf8Bytes c.toNat ++ bs)

/-- Decode one code point: given the leading byte and the following bytes,
return the code point and how many continuation bytes it consumed
(rejecting malformed, overlong, surrogate and out-of-range sequences). -/
def utf8DecodeOne (b : Nat) (rest : List Nat) : Option (Nat × Nat) :=
  if b < 128 then some (b, 0)
  else if b < 192 then none
  else if b < 224 then
    match rest with
    | b2 :: _ =>
      if 128 ≤ b2 && b2 < 192 then
        let cp := (b - 192) * 64 + (b2 - 128)
        if 128 ≤ cp then some (cp, 1) else none
      else none
    | _ => none
  else if b < 240 then
    match rest with
    | b2 :: b3 :: _ =>
      if (128 ≤ b2 && b2 < 192) && (128 ≤ b3 && b3 < 192) then
        let cp := (b - 224) * 4096 + (b2 - 128) * 64 + (b3 - 128)
        if 2048 ≤ cp && (cp < 55296 || 57344 ≤ cp) then some (cp, 2) else none
      else none
    | _ => none
  else if b < 245 then
    match rest with
    | b2 :: b3 :: b4 :: _ =>
      if (128 ≤ b2 && b2 < 192) && (128 ≤ b3 && b3 < 192) && (128 ≤ b4 && b4 < 192) then
        let cp := (b - 240) * 262144 + (b2 - 128) * 4096 + (b3 - 128) * 64 + (b4 - 128)
        if 65536 ≤ cp && cp < 1114112 then some (cp, 3) else none
      else none
    | _ => none
  else none

/-- Fuel-driven UTF-8 decoding loop; every step consumes at least the
leading byte, so fuel equal to the list length always suffices. -/
def utf8DecodeAux : Nat → List Nat → Option (List Char)
  | _, [] => some []
  | 0, _ :: _ => none
  | fuel + 1, b :: rest =>
    match utf8DecodeOne b rest with
    | none => none
    | some (cp, k) => (utf8DecodeAux fuel (rest.drop k)).map (fun cs => Char.ofNat cp :: cs)

/-- Standard UTF-8 decoding of a byte sequence. -/
def utf8Decode (l : List Nat) : Option (List Char) :=
  utf8DecodeAux l.length l

/-- Modelled host builtin `decodeURIComponent`, on character lists. -/
def decodeURIComponentChars (l : List Char) : Option (List Char) :=
  (percentDecodeBytes l).bind utf8Decode

/-! ## Data model of the plugin (src/main.ts) -/

/-- Identifier sources, `IdSource` in src/main.ts (the string enum values
`0-property` and `1-fileName` only fix the sort order of the tags). -/
inductive IdSource where
  | property
  | fileName
deriving DecidableEq, BEq

/-- Plugin settings, `IdLinkSettings` in src/main.ts.  The filename regex is
held in compiled form (the plugin compiles `idFilenameRegex` once in
`updateFilenameRegex`). -/
structure IdLinkSettings where
  idSources : List IdSource
  idProperty : String
  idFilenameRegex : Regex
  idFormat : String
  autoGenerateId : Bool
  syncIdToProperty : Bool

/-- Front-matter mapping: JavaScript-object style association list. -/
abbrev Frontmatter := List (String × Val)

/-- Property read `obj[k]` on an association list. -/
def lookupVal (k : String) : Frontmatter → Option Val
  | [] => none
  | (k', v) :: rest => if k' = k then some v else lookupVal k rest

/-- Property write `obj[k] = v` on an association list: an existing key is
updated in place, a new key is appended. -/
def setVal (k : String) (v : Val) : Frontmatter → Frontmatter
  | [] => [(k, v)]
  | (k', v') :: rest => if k' = k then (k, v) :: rest else (k', v') :: setVal k v rest

/-- A note as the plugin sees it: file name plus the cached front-matter
(absent when the file has none). -/
structure NoteFile where
  name : String
  frontmatter : Option Frontmatter
deriving DecidableEq

/-- Front-matter property of a note (absent when there is no front-matter
or no such key). -/
def noteProp (f : NoteFile) (k : String) : Option Val :=
  f.frontmatter.bind (lookupVal k)

/-- A vault file as returned by `getFiles`. -/
structure VaultFile where
  name : String
  path : String
deriving DecidableEq

/-- A Dataview page: its metadata properties and its file. -/
structure Page where
  props : Frontmatter
  file : VaultFile
deriving DecidableEq

/-! ## Plugin functions (translated from src/main.ts) -/

/-- Mirrors `findIdInFileName`: run the compiled filename regex and return
capture group 1 (`exec(fileName)?.[1]`). -/
def findIdInFileName (r : Regex) (fileName : String) : Option String :=
  (regexExec r fileName.data).bind (lookupGroup 1)

/-- Mirrors `findIdInProperty`: read the configured id property from the
note's cached front-matter. -/
def findIdInProperty (s : IdLinkSettings) (f : NoteFile) : Option Val :=
  noteProp f s.idProperty

/-- Mirrors `generateIdLink`. -/
def generateIdLink (vaultName id : String) : String :=
  "obsidian://id-link?vault=" ++ encodeURIComponent vaultName ++ "&id=" ++
    encodeURIComponent id

/-- Mirrors `saveIdToProperty`: `processFrontMatter` assigns the configured
id property in the front-matter mapping (creating the mapping if absent). -/
def saveIdToProperty (s : IdLinkSettings) (f : NoteFile) (id : String) : NoteFile :=
  { f with frontmatter := some (setVal s.idProperty (.str id) (f.frontmatter.getD [])) }

/-- Mirrors `findId`: property source first (when enabled), then the
filename source when the current candidate is falsy, then `id?.toString()`. -/
def findId (s : IdLinkSettings) (f : NoteFile) : Option String :=
  let id0 : Option Val :=
    if s.idSources.contains .property then findIdInProperty s f else none
  let id1 : Option Val :=
    if jsFalsyOpt id0 && s.idSources.contains .fileName then
      (findIdInFileName s.idFilenameRegex f.name).map .str
    else id0
  id1.map valToString

/-- Mirrors `findIdAndGenerateLink`.  `newId` stands for the value
`moment().format(idFormat)` would produce (the injected clock); the result
carries the produced link, the possibly-updated note, and the number of
front-matter write-backs performed. -/
def findIdAndGenerateLink (s : IdLinkSettings) (vaultName newId : String)
    (f : NoteFile) : Option String × NoteFile × Nat :=
  let id0 := findId s f
  let gen := jsFalsyStrOpt id0 && s.autoGenerateId && s.idSources.contains .property
  let id1 := if gen then some newId else id0
  let f1 := if gen then saveIdToProperty s f newId else f
  let writes := if gen then 1 else 0
  if jsFalsyStrOpt id1 then (none, f1, writes)
  else (id1.map (generateIdLink vaultName), f1, writes)

/-- Mirrors `syncIdFromFileName`; the boolean reports whether the
filename-derived id was written into the property. -/
def syncIdFromFileName (s : IdLinkSettings) (f : NoteFile) : NoteFile × Bool :=
  if !(s.idSources.contains .fileName) || !(s.idSources.contains .property) then
    (f, false)
  else
    let propertyId := findIdInProperty s f
    let fileNameId := findIdInFileName s.idFilenameRegex f.name
    if jsFalsyStrOpt fileNameId then (f, false)
    else
      let fid := fileNameId.getD ""
      if jsFalsyOpt propertyId || jsStrictNeqValStr propertyId fid then
        (saveIdToProperty s f fid, true)
      else (f, false)

/-- Mirrors the `modify`-event registration in `onload`: synchronization
runs only when the sync flag is set. -/
def onModify (s : IdLinkSettings) (f : NoteFile) : NoteFile × Bool :=
  if s.syncIdToProperty then syncIdFromFileName s f else (f, false)

/-- Property check built by `loadChecks`: `p[idProperty] == id` (loose). -/
def propertyCheck (s : IdLinkSettings) (p : Page) (id : String) : Bool :=
  jsLooseEqOpt (lookupVal s.idProperty p.props) id

/-- Filename check built by `loadChecks`:
`findIdInFileName(p.file.name) === id` (strict). -/
def fileNameCheck (s : IdLinkSettings) (p : Page) (id : String) : Bool :=
  findIdInFileName s.idFilenameRegex p.file.name == some id

/-- Mirrors `loadChecks`: one check per enabled source, in source order. -/
def loadChecks (s : IdLinkSettings) : List (Page → String → Bool) :=
  s.idSources.map fun src =>
    match src with
    | .property => propertyCheck s
    | .fileName => fileNameCheck s

/-- Errors surfaced by the inbound side (`showErrorAndThrow` messages and
the modelled parse failure of the host URL parsing). -/
inductive LinkError where
  | missingId
  | notFound
  | malformed
deriving DecidableEq

/-- Mirrors the `id-link` protocol handler registered in `onload`: read the
`id` parameter (erroring when falsy), query the Dataview pages with the
loaded checks, fall back to a filename scan over the vault files when that
finds nothing and the filename source is enabled, error with not-found when
no path results, and finally append `#^block-id` when given. -/
def handleIdLink (s : IdLinkSettings) (pages : List Page) (vaultFiles : List VaultFile)
    (params : List (String × String)) : Except LinkError String :=
  let idOpt := params.lookup "id"
  if jsFalsyStrOpt idOpt then .error .missingId
  else
    let id := idOpt.getD ""
    let path0 := (pages.find? fun p => (loadChecks s).any fun c => c p id).map
      fun p => p.file.path
    let path1 :=
      if jsFalsyStrOpt path0 && s.idSources.contains .fileName then
        (vaultFiles.find? fun f =>
          findIdInFileName s.idFilenameRegex f.name == some id).map VaultFile.path
      else path0
    if jsFalsyStrOpt path1 then .error .notFound
    else
      let path := path1.getD ""
      let blockId := params.lookup "block-id"
      .ok (if jsFalsyStrOpt blockId then path else path ++ "#^" ++ blockId.getD "")

/-! ## Host URL parsing (modelled)

The handler receives already-parsed query parameters from the host; the
parsing itself is not part of the repository. -/

/-- Strip a literal character prefix. -/
def stripPrefixChars : List Char → List Char → Option (List Char)
  | [], rest => some rest
  | _ :: _, [] => none
  | p :: ps, c :: cs => if c = p then stripPrefixChars ps cs else none

/-- Split at the first occurrence of a character: the part before it and,
when found, the part after it. -/
def breakAtChar (c : Char) : List Char → List Char × Option (List Char)
  | [] => ([], none)
  | x :: xs =>
    if x = c then ([], some xs)
    else
      let r := breakAtChar c xs
      (x :: r.1, r.2)

/-- Split on every occurrence of a character. -/
def splitOnChar (c : Char) : List Char → List (List Char)
  | [] => [[]]
  | x :: xs =>
    match splitOnChar c xs with
    | [] => [[x]]
    | g :: gs => if x = c then [] :: g :: gs else (x :: g) :: gs

/-- Modelled from the spec: the host splits the query on `&`, each pair at
its first `=`, and applies standard URI component decoding to key and
value; this parsing is host code absent from the repository. -/
def parseQueryPairs (l : List Char) : Option (List (String × String)) :=
  (splitOnChar '&' l).mapM fun part =>
    let kv := breakAtChar '=' part
    match decodeURIComponentChars kv.1, decodeURIComponentChars (kv.2.getD []) with
    | some kd, some vd => some (String.mk kd, String.mk vd)
    | _, _ => none

/-- Modelled from the spec: the host parses `obsidian://action?query` links
into the action name and the decoded query parameters; this parsing is host
code absent from the repository. -/
def parseObsidianUrl (url : String) : Option (String × List (String × String)) :=
  match stripPrefixChars "obsidian://".data url.data with
  | none => none
  | some rest =>
    match breakAtChar '?' rest with
    | (action, none) => some (String.mk action, [])
    | (action, some query) =>
      match parseQueryPairs query with
      | none => none
      | some ps => some (String.mk action, ps)

/-- Link decoding: modelled host URL parsing composed with the handler's
parameter reading (mandatory `id`, optional `block-id` sub-resource). -/
def decodeIdLink (url : String) : Except LinkError (String × Option String) :=
  match parseObsidianUrl url with
  | none => .error .malformed
  | some (action, params) =>
    if action = "id-link" then
      match params.lookup "id" with
      | none => .error .missingId
      | some id =>
        if id = "" then .error .missingId
        else
          let blockId := params.lookup "block-id"
          .ok (id, if jsFalsyStrOpt blockId then none else blockId)
    else .error .malformed

/-! ## Spec-side definitions (for refinement comparison) -/

/-- Join strings with the `&` separator. -/
def joinAmp : List String → String
  | [] => ""
  | [x] => x
  | x :: xs => x ++ "&" ++ joinAmp xs

/-- Follows the spec's words: the produced link format is
`scheme://id-link?vault=<percent-encoded-namespace>&id=<percent-encoded-identifier>`
with query-parameter order `vault` then `id` and standard URI component
percent-encoding applied to both values (scheme `obsidian`, parameters
joined by `&`). -/
def specProducedLink (ns id : String) : String :=
  "obsidian" ++ "://" ++ "id-link" ++ "?" ++
    joinAmp ["vault=" ++ encodeURIComponent ns, "id=" ++ encodeURIComponent id]

/-- Printable ASCII character. -/
def printableAscii (c : Char) : Prop := 32 ≤ c.toNat ∧ c.toNat ≤ 126

instance (c : Char) : Decidable (printableAscii c) := by
  unfold printableAscii; infer_instance

/-! ## Concrete fixtures used by scenario theorems -/

/-- Compiled form of the default filename pattern `^(\d{14})[ .]`. -/
def pattern14 : Regex := .seq .bol (.seq (.group 1 (repExact .digit 14)) (.anyOf [' ', '.']))

/-- Compiled form of the spec scenario pattern `^(\d{14}) `. -/
def pattern14sp : Regex := .seq .bol (.seq (.group 1 (repExact .digit 14)) (.char ' '))

/-- Compiled form of a three-digit pattern `^(\d{3}) `. -/
def pattern3 : Regex := .seq .bol (.seq (.group 1 (repExact .digit 3)) (.char ' '))

/-! ## Regex lemmas -/

theorem matchR_noGroup : ∀ r : Regex, hasGroup r = false →
    ∀ pos s g k, matchR r pos s g k = none ∨ ∃ p2 s2, matchR r pos s g k = k p2 s2 g := by
  intro r
  induction r with
  | eps => exact fun _ pos s g k => Or.inr ⟨pos, s, rfl⟩
  | bol =>
    intro _ pos s g k
    by_cases h : pos = 0
    · exact Or.inr ⟨pos, s, by simp [matchR, h]⟩
    · exact Or.inl (by simp [matchR, h])
  | char c =>
    intro _ pos s g k
    cases s with
    | nil => exact Or.inl rfl
    | cons c2 rest =>
      by_cases h : c2 = c
      · exact Or.inr ⟨pos + 1, rest, by simp [matchR, h]⟩
      · exact Or.inl (by simp [matchR, h])
  | digit =>
    intro _ pos s g k
    cases s with
    | nil => exact Or.inl rfl
    | cons c2 rest =>
      by_cases h : c2.isDigit
      · exact Or.inr ⟨pos + 1, rest, by simp [matchR, h]⟩
      · exact Or.inl (by simp [matchR, h])
  | anyOf cs =>
    intro _ pos s g k
    cases s with
    | nil => exact Or.inl rfl
    | cons c2 rest =>
      have e : matchR (.anyOf cs) pos (c2 :: rest) g k =
          if cs.contains c2 then k (pos + 1) rest g else none := rfl
      by_cases h : cs.contains c2
      · exact Or.inr ⟨pos + 1, rest, e.trans (if_pos h)⟩
      · exact Or.inl (e.trans (if_neg h))
  | seq r1 r2 ih1 ih2 =>
    intro h pos s g k
    have h12 : hasGroup r1 = false ∧ hasGroup r2 = false := by
      simpa [hasGroup] using h
    have hstep : matchR (.seq r1 r2) pos s g k =
        matchR r1 pos s g (fun p2 s2 g2 => matchR r2 p2 s2 g2 k) := rfl
    rcases ih1 h12.1 pos s g (fun p2 s2 g2 => matchR r2 p2 s2 g2 k) with h1 | ⟨p2, s2, h1⟩
    · exact Or.inl (hstep.trans h1)
    · rcases ih2 h12.2 p2 s2 g k with h2 | ⟨p3, s3, h2⟩
      · exact Or.inl ((hstep.trans h1).trans h2)
      · exact Or.inr ⟨p3, s3, (hstep.trans h1).trans h2⟩
  | group i r1 ih =>
    intro h
    simp [hasGroup] at h

theorem regexExec_noGroup (r : Regex) (h : hasGroup r = false) (s : List Char) :
    regexExec r s = none ∨ regexExec r s = some [] := by
  unfold regexExec
  cases hfind : (List.range (s.length + 1)).findSome? fun i =>
      matchR r i (s.drop i) [] fun _ _ g => some g with
  | none => exact Or.inl rfl
  | some v =>
    obtain ⟨i, _, hi⟩ := List.exists_of_findSome?_eq_some hfind
    rcases matchR_noGroup r h i (s.drop i) [] (fun _ _ g => some g) with hh | ⟨p2, s2, hh⟩
    · rw [hi] at hh; cases hh
    · rw [hi] at hh
      exact Or.inr hh

/-! ## Front-matter lemmas -/

theorem lookupVal_setVal_ne (k k' : String) (v : Val) (l : Frontmatter) (h : k ≠ k') :
    lookupVal k (setVal k' v l) = lookupVal k l := by
  induction l with
  | nil => simp [setVal, lookupVal, h.symm]
  | cons hd tl ih =>
    obtain ⟨a, b⟩ := hd
    by_cases ha : a = k'
    · subst ha
      simp [setVal, lookupVal, h.symm]
    · simp [setVal, lookupVal, ha, ih]

/-! ## More concrete fixtures -/

/-- Settings with both sources enabled and the three-digit pattern. -/
def settingsPF : IdLinkSettings :=
  { idSources := [.property, .fileName], idProperty := "id", idFilenameRegex := pattern3,
    idFormat := "YYYYMMDDHHmmss", autoGenerateId := true, syncIdToProperty := false }

/-- Page whose id property (a string) is "123". -/
def pageA : Page := { props := [("id", .str "123")], file := { name := "A.md", path := "Notes/A.md" } }

/-- Page whose filename carries the id "123". -/
def pageB : Page := { props := [], file := { name := "123 B.md", path := "Notes/B.md" } }

/-- Page whose id property is the number 123. -/
def pageNum : Page := { props := [("id", .num 123)], file := { name := "A.md", path := "Notes/A.md" } }

/-- Settings for the spec resolution scenario (pattern `^(\d{14}) `). -/
def settings14 : IdLinkSettings :=
  { idSources := [.property, .fileName], idProperty := "id", idFilenameRegex := pattern14sp,
    idFormat := "YYYYMMDDHHmmss", autoGenerateId := true, syncIdToProperty := false }

/-- Note of the spec scenario: empty metadata, timestamped filename. -/
def note14 : NoteFile := { name := "20240101120000 My Note.md", frontmatter := some [] }

/-- Note like `note14` but with an empty-string id property. -/
def note14empty : NoteFile :=
  { name := "20240101120000 My Note.md", frontmatter := some [("id", .str "")] }

/-- Settings with only the property source enabled. -/
def settingsPOnly : IdLinkSettings :=
  { idSources := [.property], idProperty := "id", idFilenameRegex := pattern3,
    idFormat := "YYYYMMDDHHmmss", autoGenerateId := true, syncIdToProperty := false }

/-- Settings with only the filename source enabled. -/
def settingsFOnly : IdLinkSettings :=
  { idSources := [.fileName], idProperty := "id", idFilenameRegex := pattern3,
    idFormat := "YYYYMMDDHHmmss", autoGenerateId := true, syncIdToProperty := false }

/-- Note with an empty-string id property. -/
def noteEmptyId : NoteFile := { name := "My Note.md", frontmatter := some [("id", .str "")] }

/-- Note with no front-matter and no filename id. -/
def notePlain : NoteFile := { name := "My Note.md", frontmatter := none }

/-- Pattern `^(B) ` capturing a literal B. -/
def patternB : Regex := .seq .bol (.seq (.group 1 (.char 'B')) (.char ' '))

/-- Sync-enabled settings with the literal-B pattern. -/
def settingsSync : IdLinkSettings :=
  { idSources := [.property, .fileName], idProperty := "id", idFilenameRegex := patternB,
    idFormat := "YYYYMMDDHHmmss", autoGenerateId := true, syncIdToProperty := true }

/-- Note whose property id is "A" and whose filename yields "B". -/
def noteAB : NoteFile := { name := "B x.md", frontmatter := some [("id", .str "A")] }

/-- Note whose property id and filename id are both "B". -/
def noteBB : NoteFile := { name := "B x.md", frontmatter := some [("id", .str "B")] }

/-! ## Claim theorems -/

/-- C8: for every filename and every filename pattern containing no capture
group, identifier extraction from the filename yields no match (absent)
rather than throwing, even when the pattern as a whole matches the
filename. -/
theorem findIdInFileName_of_no_capture_group (r : Regex) (fileName : String)
    (h : hasGroup r = false) : findIdInFileName r fileName = none := by
  unfold findIdInFileName
  rcases regexExec_noGroup r h fileName.data with h1 | h1 <;> simp [h1, lookupGroup]

/-- Witness for C8: the groupless pattern `^\d{3}` matches "123 x.md" as a
whole, yet extraction yields no match. -/
theorem findIdInFileName_of_no_capture_group_witness :
    hasGroup (Regex.seq .bol (repExact .digit 3)) = false ∧
    regexExec (Regex.seq .bol (repExact .digit 3)) "123 x.md".data = some [] ∧
    findIdInFileName (Regex.seq .bol (repExact .digit 3)) "123 x.md" = none :=
  ⟨by decide, by decide,
    findIdInFileName_of_no_capture_group (Regex.seq .bol (repExact .digit 3)) "123 x.md"
      (by decide)⟩

/-- C9: the write-back `saveIdToProperty` assigns only the configured id
property key in the note's front-matter mapping; every other key keeps its
previous value (and the file name is untouched). -/
theorem saveIdToProperty_frame (s : IdLinkSettings) (f : NoteFile) (id k : String)
    (hk : k ≠ s.idProperty) :
    noteProp (saveIdToProperty s f id) k = noteProp f k ∧
    (saveIdToProperty s f id).name = f.name := by
  constructor
  · unfold noteProp saveIdToProperty
    cases hfm : f.frontmatter with
    | none => simp [lookupVal_setVal_ne _ _ _ _ hk, lookupVal, Ne.symm hk]
    | some fm => simp [lookupVal_setVal_ne _ _ _ _ hk]
  · rfl

/-- Witness for C9 at a concrete note: the title property survives the id
write-back. -/
theorem saveIdToProperty_frame_witness :
    noteProp (saveIdToProperty settingsPF
        { name := "N.md", frontmatter := some [("title", .str "T")] } "123") "title" =
      noteProp { name := "N.md", frontmatter := some [("title", .str "T")] } "title" ∧
    (saveIdToProperty settingsPF
        { name := "N.md", frontmatter := some [("title", .str "T")] } "123").name = "N.md" :=
  saveIdToProperty_frame settingsPF
    { name := "N.md", frontmatter := some [("title", .str "T")] } "123" "title" (by decide)

/-- C10: the dispatcher's property check uses JavaScript loose equality, so
a numeric property value 123 matches the identifier string "123" (the
strict comparison used elsewhere rejects it), while the filename checks
compare extracted strings strictly. -/
theorem lookup_loose_property_strict_filename :
    loadChecks settingsPF = [propertyCheck settingsPF, fileNameCheck settingsPF] ∧
    propertyCheck settingsPF pageNum "123" = true ∧
    jsStrictNeqValStr (some (.num 123)) "123" = true ∧
    fileNameCheck settingsPF pageB "123" = true ∧
    fileNameCheck settingsPF pageB "0123" = false :=
  ⟨rfl, by decide, by decide, by decide, by decide⟩

/-- C2: with both sources and sync enabled, a property id "A" against a
filename id "B" gets overwritten by "B" and reported written; matching ids
"B"/"B" report unchanged with no write; the filename is never modified. -/
theorem syncIdFromFileName_directionality (s : IdLinkSettings) (f : NoteFile)
    (hp : s.idSources.contains .property = true)
    (hf : s.idSources.contains .fileName = true)
    (hs : s.syncIdToProperty = true) :
    ((findIdInProperty s f = some (.str "A") ∧
        findIdInFileName s.idFilenameRegex f.name = some "B") →
      onModify s f = (saveIdToProperty s f "B", true)) ∧
    ((findIdInProperty s f = some (.str "B") ∧
        findIdInFileName s.idFilenameRegex f.name = some "B") →
      onModify s f = (f, false)) ∧
    (onModify s f).1.name = f.name := by
  refine ⟨?_, ?_, ?_⟩
  · rintro ⟨h1, h2⟩
    unfold onModify syncIdFromFileName
    rw [hs, h2]
    simp [hp, hf, h1, jsFalsyStrOpt, jsFalsyOpt, jsTruthy, jsStrictNeqValStr]
  · rintro ⟨h1, h2⟩
    unfold onModify syncIdFromFileName
    rw [hs, h2]
    simp [hp, hf, h1, jsFalsyStrOpt, jsFalsyOpt, jsTruthy, jsStrictNeqValStr]
  · simp only [onModify, syncIdFromFileName]
    repeat' split
    all_goals rfl

/-- Witness for C2 at a concrete note and config (property "A", filename
"B"): the property is overwritten with "B" and the write is reported. -/
theorem syncIdFromFileName_directionality_witness :
    onModify settingsSync noteAB = (saveIdToProperty settingsSync noteAB "B", true) ∧
    onModify settingsSync noteBB = (noteBB, false) ∧
    noteProp (onModify settingsSync noteAB).1 "id" = some (.str "B") :=
  ⟨(syncIdFromFileName_directionality settingsSync noteAB (by decide) (by decide) rfl).1
      ⟨by decide, by decide⟩,
    (syncIdFromFileName_directionality settingsSync noteBB (by decide) (by decide) rfl).2.1
      ⟨by decide, by decide⟩,
    by decide⟩

/-- C4 (amended): the write-back count of `findIdAndGenerateLink` is at most
one, and is one exactly when the resolved id is JS-falsy, auto-generation
is set and the property source is enabled; a disabled property source or a
truthy resolved id leaves the note untouched. -/
theorem findIdAndGenerateLink_write_discipline (s : IdLinkSettings)
    (vaultName newId : String) (f : NoteFile) :
    (findIdAndGenerateLink s vaultName newId f).2.2 ≤ 1 ∧
    ((findIdAndGenerateLink s vaultName newId f).2.2 = 1 ↔
      (jsFalsyStrOpt (findId s f) = true ∧ s.autoGenerateId = true ∧
        s.idSources.contains .property = true)) ∧
    (s.idSources.contains .property = false →
      (findIdAndGenerateLink s vaultName newId f).2.2 = 0 ∧
      (findIdAndGenerateLink s vaultName newId f).2.1 = f) ∧
    ((findIdAndGenerateLink s vaultName newId f).2.2 = 0 →
      (findIdAndGenerateLink s vaultName newId f).2.1 = f) := by
  unfold findIdAndGenerateLink
  by_cases h1 : jsFalsyStrOpt (findId s f) = true <;>
    by_cases h2 : s.autoGenerateId = true <;>
    by_cases h3 : s.idSources.contains .property = true <;>
    simp [h1, h2, h3, apply_ite, ite_self]

/-- Witness for C4: with the property source disabled the note is untouched
even though the auto-generate flag is set. -/
theorem findIdAndGenerateLink_write_discipline_witness :
    (findIdAndGenerateLink settingsFOnly "V" "X" notePlain).2.2 = 0 ∧
    (findIdAndGenerateLink settingsFOnly "V" "X" notePlain).2.1 = notePlain :=
  (findIdAndGenerateLink_write_discipline settingsFOnly "V" "X" notePlain).2.2.1 (by decide)

/-- C4 counterexample to the original claim: the property source yields the
(non-absent) empty-string id, yet generation and a write-back still run,
because the code gates on JS falsiness rather than absence. -/
theorem findIdAndGenerateLink_empty_id_counterexample :
    findIdInProperty settingsPOnly noteEmptyId = some (.str "") ∧
    (findIdAndGenerateLink settingsPOnly "V" "20240101120000" noteEmptyId).2.2 = 1 :=
  ⟨by decide, by decide⟩

/-- C3 (amended): with both sources enabled, resolution checks Property
before FileName and returns the first JS-truthy result (a present but
falsy property value, such as the empty string, is skipped in favour of
the filename); in the spec scenario the timestamped filename resolves with
no write-back. -/
theorem findId_resolution_order (s : IdLinkSettings) (f : NoteFile)
    (hp : s.idSources.contains .property = true)
    (hf : s.idSources.contains .fileName = true) :
    findId s f = (match findIdInProperty s f with
      | some v => if jsTruthy v then some (valToString v)
          else findIdInFileName s.idFilenameRegex f.name
      | none => findIdInFileName s.idFilenameRegex f.name) ∧
    (findId settings14 note14 = some "20240101120000" ∧
      findIdAndGenerateLink settings14 "MyVault" "X" note14 =
        (some (generateIdLink "MyVault" "20240101120000"), note14, 0)) := by
  constructor
  · unfold findId
    rw [hp, hf]
    cases hv : findIdInProperty s f with
    | none =>
      cases hfn : findIdInFileName s.idFilenameRegex f.name <;>
        simp [jsFalsyOpt, hfn, valToString]
    | some v =>
      cases ht : jsTruthy v with
      | false =>
        cases hfn : findIdInFileName s.idFilenameRegex f.name <;>
          simp [jsFalsyOpt, ht, hfn, valToString]
      | true => simp [jsFalsyOpt, ht, valToString]
  · exact ⟨by decide, by rfl⟩

/-- Witness for C3 at the spec scenario inputs. -/
theorem findId_resolution_order_witness :
    findId settings14 note14 = some "20240101120000" :=
  (findId_resolution_order settings14 note14 (by decide) (by decide)).2.1

/-- C3 counterexample to the original claim: the property extractor yields
the non-absent empty string, but resolution does not return it — the
filename result is returned instead, because the code gates on JS
falsiness rather than absence. -/
theorem findId_empty_property_counterexample :
    findIdInProperty settings14 note14empty = some (.str "") ∧
    findId settings14 note14empty = some "20240101120000" ∧
    (some "20240101120000" : Option String) ≠ some "" :=
  ⟨by decide, by decide, by decide⟩

/-- C1 (amended): tie-breaking between records matching the same identifier
is decided by index enumeration order, with source priority applying only
within one record's checks; when the property-indexed record is enumerated
first, its path is returned. -/
theorem handleIdLink_first_enumerated_wins :
    handleIdLink settingsPF [pageA, pageB] [] [("vault", "V"), ("id", "123")] =
      .ok "Notes/A.md" := by
  rfl

/-- C1 counterexample to the original claim: identifier "123" matches the
property-indexed record at Notes/A.md and the filename-indexed record at
Notes/B.md, but with the filename record enumerated first the handler
returns Notes/B.md, not the property record's location. -/
theorem handleIdLink_enumeration_counterexample :
    propertyCheck settingsPF pageA "123" = true ∧
    fileNameCheck settingsPF pageB "123" = true ∧
    handleIdLink settingsPF [pageB, pageA] [] [("vault", "V"), ("id", "123")] =
      .ok "Notes/B.md" ∧
    ("Notes/B.md" : String) ≠ "Notes/A.md" :=
  ⟨by decide, by decide, by rfl, by decide⟩

/-- C7: query parameters lacking the id key make the handler fail with the
missing-identifier error — distinct from the generic parse failure and from
not-found — and no note is opened; decoding the concrete link
`obsidian://id-link?vault=MyVault` fails the same way. -/
theorem handleIdLink_missing_identifier (s : IdLinkSettings) (pages : List Page)
    (vaultFiles : List VaultFile) (params : List (String × String))
    (h : params.lookup "id" = none) :
    handleIdLink s pages vaultFiles params = .error .missingId ∧
    decodeIdLink "obsidian://id-link?vault=MyVault" = .error .missingId ∧
    LinkError.missingId ≠ LinkError.malformed ∧
    LinkError.missingId ≠ LinkError.notFound := by
  refine ⟨?_, by rfl, by decide, by decide⟩
  unfold handleIdLink
  rw [h]
  rfl

/-- Witness for C7 at a concrete parameter set lacking the id key. -/
theorem handleIdLink_missing_identifier_witness :
    handleIdLink settingsPF [] [] [("vault", "MyVault")] = .error .missingId :=
  (handleIdLink_missing_identifier settingsPF [] [] [("vault", "MyVault")] rfl).1

/-! ## String and splitter lemmas -/

theorem strData_append (a b : String) : (a ++ b).data = a.data ++ b.data := by
  cases a; cases b; rfl

theorem strMk_data (a : String) : String.mk a.data = a := rfl

theorem stripPrefixChars_append (p r : List Char) : stripPrefixChars p (p ++ r) = some r := by
  induction p with
  | nil => rfl
  | cons c cs ih => simp [stripPrefixChars, ih]

theorem breakAtChar_not_mem (c : Char) (l : List Char) (h : c ∉ l) :
    breakAtChar c l = (l, none) := by
  induction l with
  | nil => rfl
  | cons x xs ih =>
    rw [List.mem_cons] at h
    push_neg at h
    simp [breakAtChar, Ne.symm h.1, ih h.2]

theorem breakAtChar_append (c : Char) (xs ys : List Char) (h : c ∉ xs) :
    breakAtChar c (xs ++ c :: ys) = (xs, some ys) := by
  induction xs with
  | nil => simp [breakAtChar]
  | cons x xt ih =>
    rw [List.mem_cons] at h
    push_neg at h
    simp [breakAtChar, Ne.symm h.1, ih h.2]

theorem splitOnChar_ne_nil (c : Char) (l : List Char) : splitOnChar c l ≠ [] := by
  cases l with
  | nil => simp [splitOnChar]
  | cons x xs =>
    rw [splitOnChar]
    cases h : splitOnChar c xs with
    | nil => simp
    | cons g gs => dsimp only; split <;> simp

theorem splitOnChar_not_mem (c : Char) (l : List Char) (h : c ∉ l) :
    splitOnChar c l = [l] := by
  induction l with
  | nil => rfl
  | cons x xs ih =>
    rw [List.mem_cons] at h
    push_neg at h
    simp [splitOnChar, ih h.2, Ne.symm h.1]

theorem splitOnChar_append (c : Char) (xs ys : List Char) (h : c ∉ xs) :
    splitOnChar c (xs ++ c :: ys) = xs :: splitOnChar c ys := by
  induction xs with
  | nil =>
    cases hs : splitOnChar c ys with
    | nil => exact absurd hs (splitOnChar_ne_nil c ys)
    | cons g gs => simp [splitOnChar, hs]
  | cons x xt ih =>
    rw [List.mem_cons] at h
    push_neg at h
    simp [splitOnChar, ih h.2, Ne.symm h.1]

/-! ## Encoding lemmas -/

theorem utf8Bytes_lt (n : Nat) : ∀ b ∈ utf8Bytes n, b < 256 := by
  intro b hb
  by_cases h1 : n < 128
  · simp [utf8Bytes, h1] at hb
    omega
  · by_cases h2 : n < 2048
    · simp [utf8Bytes, h1, h2] at hb
      rcases hb with hb | hb <;> omega
    · by_cases h3 : n < 65536
      · simp [utf8Bytes, h1, h2, h3] at hb
        rcases hb with hb | hb | hb <;> omega
      · simp [utf8Bytes, h1, h2, h3] at hb
        rcases hb with hb | hb | hb | hb <;> omega

theorem hexDigit_unreserved : ∀ n, n < 16 → isUnreservedURI (hexDigit n) = true := by decide

theorem hexVal_hexDigit : ∀ n, n < 16 → hexVal (hexDigit n) = some n := by decide

theorem mem_encodeChar (c x : Char) (hx : x ∈ encodeChar c) :
    isUnreservedURI x = true ∨ x = '%' := by
  unfold encodeChar at hx
  by_cases h : isUnreservedURI c
  · simp [h] at hx
    subst hx
    exact Or.inl h
  · simp [h] at hx
    obtain ⟨b, hb, hmem⟩ := hx
    have hb256 : b < 256 := utf8Bytes_lt _ b hb
    rcases hmem with h1 | h1 | h1
    · exact Or.inr h1
    · subst h1; exact Or.inl (hexDigit_unreserved (b / 16) (by omega))
    · subst h1; exact Or.inl (hexDigit_unreserved (b % 16) (by omega))

theorem encodeChars_no_special (l : List Char) (x : Char) (hx : x ∈ l.flatMap encodeChar) :
    x ≠ '&' ∧ x ≠ '=' ∧ x ≠ '?' := by
  obtain ⟨c, _, hc⟩ := List.mem_flatMap.1 hx
  rcases mem_encodeChar c x hc with h | h
  · refine ⟨fun he => ?_, fun he => ?_, fun he => ?_⟩ <;> (subst he; revert h; decide)
  · subst h
    refine ⟨by decide, by decide, by decide⟩

theorem percentDecodeBytes_cons_ne (c : Char) (rest : List Char) (h : c ≠ '%') :
    percentDecodeBytes (c :: rest) =
      (percentDecodeBytes rest).map (fun bs => utf8Bytes c.toNat ++ bs) := by
  match rest with
  | [] => simp [percentDecodeBytes, h]
  | [x] => simp [percentDecodeBytes, h]
  | x :: y :: t => simp [percentDecodeBytes, h]

theorem percentDecodeBytes_pct (v1 v2 : Nat) (h1 h2 : Char) (rest : List Char)
    (e1 : hexVal h1 = some v1) (e2 : hexVal h2 = some v2) :
    percentDecodeBytes ('%' :: h1 :: h2 :: rest) =
      (percentDecodeBytes rest).map (fun bs => (16 * v1 + v2) :: bs) := by
  simp [percentDecodeBytes, e1, e2]

theorem percentDecodeBytes_encodeChar (c : Char) (rest : List Char) (hc : c.toNat < 128) :
    percentDecodeBytes (encodeChar c ++ rest) =
      (percentDecodeBytes rest).map (fun bs => c.toNat :: bs) := by
  have hu : utf8Bytes c.toNat = [c.toNat] := by simp [utf8Bytes, hc]
  unfold encodeChar
  by_cases h : isUnreservedURI c
  · have hne : c ≠ '%' := fun he => by subst he; revert h; decide
    simp only [h, if_true, List.cons_append, List.nil_append]
    rw [percentDecodeBytes_cons_ne c rest hne]
    simp only [hu, List.cons_append, List.nil_append]
  · simp only [h, if_false, Bool.false_eq_true, hu]
    simp only [List.flatMap_cons, List.flatMap_nil, List.append_nil, List.cons_append,
      List.nil_append]
    rw [percentDecodeBytes_pct (c.toNat / 16) (c.toNat % 16) _ _ rest
      (hexVal_hexDigit _ (by omega)) (hexVal_hexDigit _ (by omega))]
    have he : 16 * (c.toNat / 16) + c.toNat % 16 = c.toNat := by omega
    simp only [he]

theorem percentDecodeBytes_encodeChars (l : List Char) (h : ∀ c ∈ l, c.toNat < 128) :
    percentDecodeBytes (l.flatMap encodeChar) = some (l.map Char.toNat) := by
  induction l with
  | nil => rfl
  | cons c cs ih =>
    rw [List.flatMap_cons, percentDecodeBytes_encodeChar c _ (h c (by simp)),
      ih (fun x hx => h x (by simp [hx]))]
    rfl

theorem utf8DecodeOne_lt (b : Nat) (rest : List Nat) (hb : b < 128) :
    utf8DecodeOne b rest = some (b, 0) := by
  unfold utf8DecodeOne
  rw [if_pos hb]

theorem utf8DecodeAux_cons_lt (fuel b : Nat) (rest : List Nat) (hb : b < 128) :
    utf8DecodeAux (fuel + 1) (b :: rest) =
      (utf8DecodeAux fuel rest).map (fun cs => Char.ofNat b :: cs) := by
  rw [utf8DecodeAux, utf8DecodeOne_lt b rest hb]
  simp only [List.drop_zero]

theorem utf8Decode_map_toNat (l : List Char) (h : ∀ c ∈ l, c.toNat < 128) :
    utf8Decode (l.map Char.toNat) = some l := by
  induction l with
  | nil => rfl
  | cons c cs ih =>
    have hc : c.toNat < 128 := h c (by simp)
    show utf8DecodeAux (List.map Char.toNat (c :: cs)).length (List.map Char.toNat (c :: cs)) =
      some (c :: cs)
    rw [List.map_cons]
    have hlen : (Char.toNat c :: List.map Char.toNat cs).length = cs.length + 1 := by simp
    rw [hlen, utf8DecodeAux_cons_lt cs.length _ _ hc]
    have hcs : utf8DecodeAux cs.length (List.map Char.toNat cs) = some cs := by
      have hi := ih (fun x hx => h x (by simp [hx]))
      unfold utf8Decode at hi
      rwa [List.length_map] at hi
    rw [hcs]
    simp [Char.ofNat_toNat]

theorem decodeURIComponentChars_encode (l : List Char) (h : ∀ c ∈ l, c.toNat < 128) :
    decodeURIComponentChars (l.flatMap encodeChar) = some l := by
  unfold decodeURIComponentChars
  rw [percentDecodeBytes_encodeChars l h]
  exact utf8Decode_map_toNat l h

/-- C5: the produced link is bit-exact to the spec format — scheme, the
`id-link` action, query-parameter order vault then id, and standard URI
component percent-encoding of both values. -/
theorem generateIdLink_spec_format (vaultName id : String) :
    generateIdLink vaultName id = specProducedLink vaultName id := by
  apply String.ext
  simp only [generateIdLink, specProducedLink, joinAmp, strData_append]
  simp [List.append_assoc]

/-- Round-trip core: decoding an encoded link recovers the identifier with
an absent sub-resource, for ASCII namespaces and a nonempty ASCII
identifier. -/
theorem decodeIdLink_generateIdLink (ns id : String)
    (hns : ∀ c ∈ ns.data, c.toNat < 128) (hid : ∀ c ∈ id.data, c.toNat < 128)
    (hid0 : id ≠ "") :
    decodeIdLink (generateIdLink ns id) = .ok (id, none) := by
  have hamp1 : '&' ∉ ("vault=" : String).data ++ ns.data.flatMap encodeChar := by
    intro hmem
    rcases List.mem_append.1 hmem with hm | hm
    · revert hm; decide
    · exact (encodeChars_no_special _ _ hm).1 rfl
  have hamp2 : '&' ∉ ("id=" : String).data ++ id.data.flatMap encodeChar := by
    intro hmem
    rcases List.mem_append.1 hmem with hm | hm
    · revert hm; decide
    · exact (encodeChars_no_special _ _ hm).1 rfl
  have hv1eq : ("vault=" : String).data ++ ns.data.flatMap encodeChar =
      ("vault" : String).data ++ '=' :: ns.data.flatMap encodeChar := by
    have h0 : ("vault=" : String).data = ("vault" : String).data ++ ['='] := by decide
    rw [h0, List.append_assoc]
    rfl
  have hv2eq : ("id=" : String).data ++ id.data.flatMap encodeChar =
      ("id" : String).data ++ '=' :: id.data.flatMap encodeChar := by
    have h0 : ("id=" : String).data = ("id" : String).data ++ ['='] := by decide
    rw [h0, List.append_assoc]
    rfl
  have hbreak1 : breakAtChar '=' (("vault=" : String).data ++ ns.data.flatMap encodeChar) =
      (("vault" : String).data, some (ns.data.flatMap encodeChar)) := by
    rw [hv1eq]
    exact breakAtChar_append '=' _ _ (by decide)
  have hbreak2 : breakAtChar '=' (("id=" : String).data ++ id.data.flatMap encodeChar) =
      (("id" : String).data, some (id.data.flatMap encodeChar)) := by
    rw [hv2eq]
    exact breakAtChar_append '=' _ _ (by decide)
  have hq : parseQueryPairs (("vault=" : String).data ++ (ns.data.flatMap encodeChar ++
      '&' :: (("id=" : String).data ++ id.data.flatMap encodeChar))) =
      some [("vault", ns), ("id", id)] := by
    unfold parseQueryPairs
    rw [← List.append_assoc ("vault=" : String).data (ns.data.flatMap encodeChar)
      ('&' :: (("id=" : String).data ++ id.data.flatMap encodeChar))]
    rw [splitOnChar_append '&' _ _ hamp1, splitOnChar_not_mem '&' _ hamp2]
    simp only [List.mapM_cons, List.mapM_nil, hbreak1, hbreak2, Option.getD_some,
      decodeURIComponentChars_encode ns.data hns, decodeURIComponentChars_encode id.data hid,
      strMk_data]
    rfl
  have h1 : stripPrefixChars ("obsidian://" : String).data (generateIdLink ns id).data =
      some (("id-link" : String).data ++ '?' :: (("vault=" : String).data ++
        (ns.data.flatMap encodeChar ++
          '&' :: (("id=" : String).data ++ id.data.flatMap encodeChar)))) := by
    have l1 : ("obsidian://id-link?vault=" : String).data =
        ("obsidian://" : String).data ++ (("id-link" : String).data ++
          '?' :: ("vault=" : String).data) := by decide
    have l2 : ("&id=" : String).data = '&' :: ("id=" : String).data := by decide
    have hd : (generateIdLink ns id).data =
        ("obsidian://" : String).data ++ (("id-link" : String).data ++ '?' ::
          (("vault=" : String).data ++ (ns.data.flatMap encodeChar ++
            '&' :: (("id=" : String).data ++ id.data.flatMap encodeChar)))) := by
      simp [generateIdLink, strData_append, encodeURIComponent, l1, l2, List.append_assoc]
    rw [hd]
    exact stripPrefixChars_append _ _
  have hparse : parseObsidianUrl (generateIdLink ns id) =
      some ("id-link", [("vault", ns), ("id", id)]) := by
    unfold parseObsidianUrl
    have h2 : breakAtChar '?' (("id-link" : String).data ++ '?' ::
        (("vault=" : String).data ++ (ns.data.flatMap encodeChar ++
          '&' :: (("id=" : String).data ++ id.data.flatMap encodeChar)))) =
        (("id-link" : String).data, some (("vault=" : String).data ++
          (ns.data.flatMap encodeChar ++
            '&' :: (("id=" : String).data ++ id.data.flatMap encodeChar)))) :=
      breakAtChar_append '?' _ _ (by decide)
    simp only [h1, h2, hq, strMk_data]
  unfold decodeIdLink
  simp only [hparse]
  have hlook : List.lookup "id" [("vault", ns), ("id", id)] = some id := by
    simp [List.lookup]
  have hlookb : List.lookup "block-id" [("vault", ns), ("id", id)] = none := by
    simp [List.lookup]
  simp [hlook, hlookb, hid0, jsFalsyStrOpt]

/-- C6 (amended): for all printable-ASCII (namespace, identifier) pairs not
containing the fragment delimiter, with a nonempty identifier, decoding an
encoded link recovers exactly the identifier and an absent sub-resource. -/
theorem decode_encode_roundtrip (ns id : String)
    (hns : ∀ c ∈ ns.data, printableAscii c) (hid : ∀ c ∈ id.data, printableAscii c)
    (_hnsd : '#' ∉ ns.data) (_hidd : '#' ∉ id.data) (hid0 : id ≠ "") :
    decodeIdLink (generateIdLink ns id) = .ok (id, none) :=
  decodeIdLink_generateIdLink ns id
    (fun c hc => by have := hns c hc; unfold printableAscii at this; omega)
    (fun c hc => by have := hid c hc; unfold printableAscii at this; omega)
    hid0

/-- Witness for C6 at a concrete pair. -/
theorem decode_encode_roundtrip_witness :
    decodeIdLink (generateIdLink "MyVault" "123") = .ok ("123", none) :=
  decode_encode_roundtrip "MyVault" "123" (by decide) (by decide) (by decide) (by decide)
    (by decide)

/-- C6 counterexample to the original claim: the empty identifier is a
printable-ASCII, delimiter-free string, yet its encoded link does not
round-trip — decoding fails with the missing-identifier error because the
handler treats an empty id parameter as missing. -/
theorem decode_encode_empty_id_counterexample :
    decodeIdLink (generateIdLink "MyVault" "") = .error .missingId ∧
    (Except.error LinkError.missingId : Except LinkError (String × Option String)) ≠
      .ok ("", none) :=
  ⟨by rfl, fun h => Except.noConfusion h⟩

end IdLink
